import Mathlib

/- Verification of the playlist chat assistant in src/app.py.

   Python strings are modelled as List Char.  The string methods the code
   uses are modelled faithfully for the character ranges the program works
   with: str.split(sep) as pySplit, str.strip() as pyStrip, str.lower() as
   pyLower (ASCII letters), str.isdigit() on a first character as
   firstIsDigit, and the containment operator as the list-infix relation.
   A Python expression that can raise (the unguarded [1] index accesses)
   is modelled with Option, none standing for an exception escaping the
   enclosing function.  The two remote services (the generation provider
   and the Spotify catalog) are modelled as oracle parameters, so theorems
   quantify over every possible service behaviour, an exception being one
   of the behaviours. -/

/-- Whitespace set of Python str.strip(). -/
def pyIsSpace (c : Char) : Bool :=
  c = ' ' || c = '\t' || c = '\n' || c = '\r' || c = '\x0b' || c = '\x0c'

/-- Python str.strip(): drop whitespace from both ends. -/
def pyStrip (l : List Char) : List Char :=
  ((l.dropWhile pyIsSpace).reverse.dropWhile pyIsSpace).reverse

/-- ASCII upper-case letters. -/
def upperChars : List Char :=
  ['A', 'B', 'C', 'D', 'E', 'F', 'G', 'H', 'I', 'J', 'K', 'L', 'M',
   'N', 'O', 'P', 'Q', 'R', 'S', 'T', 'U', 'V', 'W', 'X', 'Y', 'Z']

/-- Python str.lower() on one character, for the ASCII range the program's
markers use. -/
def pyToLower (c : Char) : Char :=
  if c ∈ upperChars then Char.ofNat (c.toNat + 32) else c

/-- Python str.lower(). -/
def pyLower (l : List Char) : List Char := l.map pyToLower

/-- Fuel-driven worker for pySplit; the fuel is at least the length of the
list being split, so the fuel-exhaustion arm is never reached. -/
def pySplitF (sep : List Char) : Nat → List Char → List (List Char)
  | _, [] => [[]]
  | 0, l => [l]
  | f + 1, c :: rest =>
    if !sep.isEmpty && sep.isPrefixOf (c :: rest) then
      [] :: pySplitF sep f ((c :: rest).drop sep.length)
    else
      match pySplitF sep f rest with
      | [] => [[c]]
      | h :: t => (c :: h) :: t

/-- Python str.split(sep) for a non-empty separator: split on every
non-overlapping occurrence, scanning left to right, keeping empty parts. -/
def pySplit (sep l : List Char) : List (List Char) := pySplitF sep l.length l

/-- The pattern p occurs in l starting at index i. -/
def occursAt (p l : List Char) (i : Nat) : Prop := p <+: l.drop i

instance (p l : List Char) (i : Nat) : Decidable (occursAt p l i) :=
  inferInstanceAs (Decidable (p <+: l.drop i))

/-- Every occurrence of pat in l starts at index k (there may also be
none): the bounded quantifier keeps the statement decidable. -/
def occursOnlyAt (pat l : List Char) (k : Nat) : Prop :=
  ∀ i < l.length, occursAt pat l i → i = k

instance (pat l : List Char) (k : Nat) : Decidable (occursOnlyAt pat l k) := by
  unfold occursOnlyAt; infer_instance

/-- Guard line[0].isdigit() of extract_songs; the Python code indexes the
line only after checking that its strip is non-empty. -/
def firstIsDigit (l : List Char) : Bool :=
  match l with
  | [] => false
  | c :: _ => c.isDigit

/-- Literal separator of the song line: space, dash, space. -/
def dashSep : List Char := " - ".data

/-- Literal separator between the ordinal and the title: dot, space. -/
def dotSep : List Char := ". ".data

/-- One iteration of the extract_songs loop (src/app.py lines 38-44).
none: the unguarded index parts[0].split(". ")[1] raised IndexError;
some none: the line is skipped; some (some p): the pair p is appended. -/
def parseLine (line : List Char) : Option (Option (List Char × List Char)) :=
  if !(pyStrip line).isEmpty && firstIsDigit line then
    match pySplit dashSep line with
    | [p0, p1] =>
      match pySplit dotSep p0 with
      | _ :: t :: _ => some (some (pyStrip t, pyStrip p1))
      | _ => none
    | _ => some none
  else
    some none

/-- Fold of parseLine over the lines; an exception in any line aborts the
whole call, as the Python loop raises out of extract_songs. -/
def extractLines : List (List Char) → Option (List (List Char × List Char))
  | [] => some []
  | l :: rest =>
    match parseLine l with
    | none => none
    | some none => extractLines rest
    | some (some p) => (extractLines rest).map (fun s => p :: s)

/-- Model of extract_songs (src/app.py lines 34-45). -/
def extract_songs (playlist_text : List Char) : Option (List (List Char × List Char)) :=
  extractLines (pySplit ['\n'] playlist_text)

/-- Query string built by search_songs for one song. -/
def searchQuery (song artist : List Char) : List Char :=
  "track:".data ++ song ++ " artist:".data ++ artist

/-- Model of search_songs (src/app.py lines 48-59).  The oracle maps a
query to none when the Spotify call (or the result access) raises, and to
the list of result track uris otherwise; the per-song try/except turns a
raise into a silent skip and the loop continues. -/
def search_songs (oracle : List Char → Option (List (List Char))) :
    List (List Char × List Char) → List (List Char)
  | [] => []
  | (song, artist) :: rest =>
    match oracle (searchQuery song artist) with
    | some (u :: _) => u :: search_songs oracle rest
    | _ => search_songs oracle rest

/-- Record returned by the playlist-creation endpoint: an identifier and
the public web link found under external_urls.spotify. -/
structure SpotifyPlaylist where
  pid : List Char
  spotifyUrl : List Char
  deriving DecidableEq

/-- Behaviour of the catalog service for one create_spotify_playlist call:
each step either succeeds or raises. -/
structure CatalogOracle where
  auth : Except Unit Unit
  create : List Char → Except Unit SpotifyPlaylist
  addItems : List Char → List (List Char) → Except Unit Unit

/-- Model of create_spotify_playlist (src/app.py lines 62-86): the
enclosing try/except turns any raise (auth, creation, add-items) into the
no-URL outcome none; on success the public link is returned. -/
def create_spotify_playlist (cat : CatalogOracle) (playlist_name : List Char)
    (track_uris : List (List Char)) : Option (List Char) :=
  match cat.auth with
  | .error _ => none
  | .ok _ =>
    match cat.create playlist_name with
    | .error _ => none
    | .ok playlist =>
      if track_uris.isEmpty then some playlist.spotifyUrl
      else
        match cat.addItems playlist.pid track_uris with
        | .error _ => none
        | .ok _ => some playlist.spotifyUrl

/-- Exact-case mood marker used by the splits in src/app.py lines 147-148. -/
def moodMarker : List Char := "Mood:".data

/-- Exact-case genre marker used by the splits in src/app.py lines 147-148. -/
def genreMarker : List Char := "Genre:".data

/-- Lower-case mood marker used by the containment check in line 145. -/
def moodLower : List Char := "mood:".data

/-- Lower-case genre marker used by the containment check in line 145. -/
def genreLower : List Char := "genre:".data

/-- Lower-case content-filter marker of the check in line 141. -/
def blockedLower : List Char := "blocked by content filtering".data

/-- Model of the marker split (src/app.py lines 146-148):
mood is text.split("Mood:")[1].split("Genre:")[0].strip() and genre is
text.split("Genre:")[1].strip().  none models the IndexError raised by a
[1] access on a split with a single part. -/
def extractMoodGenre (text : List Char) : Option (List Char × List Char) :=
  match pySplit moodMarker text with
  | _ :: m1 :: _ =>
    match pySplit genreMarker text with
    | _ :: g1 :: _ => some (pyStrip ((pySplit genreMarker m1).headD []), pyStrip g1)
    | _ => none
  | _ => none

/-- Outcome of the preference-extraction block (src/app.py lines 139-153). -/
inductive ExtractOutcome where
  | filtered
  | parseFailure
  | passThrough
  | success (mood genre : List Char)
  deriving DecidableEq

/-- True exactly on the success outcome. -/
def isSuccess : ExtractOutcome → Bool
  | .success _ _ => true
  | _ => false

/-- Model of src/app.py lines 141-153 applied to the stripped response
text: filtered when the blocked marker occurs in the lower-cased text;
parseFailure when a marker split raises IndexError (caught at line 149);
passThrough when a marker is missing or an extracted field strips to the
empty string, so mood or genre stays falsy and the text is passed through;
success m g when both extracted fields are non-empty. -/
def classify_response (response_text : List Char) : ExtractOutcome :=
  if blockedLower <:+: pyLower response_text then .filtered
  else if moodLower <:+: pyLower response_text ∧ genreLower <:+: pyLower response_text then
    match extractMoodGenre response_text with
    | none => .parseFailure
    | some (m, g) => if m.isEmpty || g.isEmpty then .passThrough else .success m g
  else .passThrough

/-- Session preference state (src/app.py lines 28-31); the static
"state" key of the session dict is never read or written and is omitted. -/
structure Prefs where
  mood : Option (List Char)
  genre : Option (List Char)
  deriving DecidableEq

/-- Initial session preferences: both fields None. -/
def sessionInit : Prefs := ⟨none, none⟩

/-- Fixed retry message returned on the filtered outcome (line 142). -/
def filteredMsg : List Char :=
  "🎵 **Oops! Something went wrong.** Let's try again! Please share your mood and favorite genre, and I'll make a playlist for you. 😊".data

/-- Fixed message returned when the marker split raises (line 150). -/
def parseFailMsg : List Char :=
  "⚠️ I couldn't determine both mood and genre. Try again!".data

/-- Fixed message returned when the generated playlist text is empty
(line 160). -/
def genFailMsg : List Char :=
  "⚠️ Couldn't generate a playlist. Try again!".data

/-- Text placed between the playlist text and the share link (line 166). -/
def listenIntro : List Char :=
  "\n\n🎶 **Listen on Spotify:** ".data

/-- Fixed degraded-mode notice appended when publishing failed (line 168). -/
def degradedNotice : List Char :=
  "\n\n⚠️ Couldn't create a Spotify playlist, but here are the songs!".data

/-- Playlist name built at line 163. -/
def playlistName (mood genre : List Char) : List Char :=
  mood ++ [' '] ++ genre ++ " Playlist".data

/-- Model of music_assistant_llm (src/app.py lines 119-168) together with
the inlined generate_playlist call (lines 89-116).  classifyRaw and
playlistRaw are the texts returned by the two generation calls; search and
cat are the catalog oracles; st is the session preference state before the
message.  The first component is the reply, none when the request dies on
the uncaught IndexError raised by extract_songs; the second component is
the session preference state after the call.  The check on the returned
url models the Python truthiness test at line 165, under which both None
and the empty string select the degraded-mode notice. -/
def music_assistant_llm (classifyRaw playlistRaw : List Char)
    (search : List Char → Option (List (List Char))) (cat : CatalogOracle)
    (st : Prefs) : Option (List Char) × Prefs :=
  let response_text := pyStrip classifyRaw
  match classify_response response_text with
  | .filtered => (some filteredMsg, st)
  | .parseFailure => (some parseFailMsg, st)
  | .passThrough => (some response_text, st)
  | .success m g =>
    let newSt : Prefs := ⟨some m, some g⟩
    let ptext := pyStrip playlistRaw
    if ptext.isEmpty then (some genFailMsg, newSt)
    else
      match extract_songs ptext with
      | none => (none, newSt)
      | some songs =>
        match create_spotify_playlist cat (playlistName m g) (search_songs search songs) with
        | some url =>
          if url.isEmpty then (some (ptext ++ degradedNotice), newSt)
          else (some (ptext ++ listenIntro ++ url), newSt)
        | none => (some (ptext ++ degradedNotice), newSt)

/-- Shape of a playlist line claimed by C1, for the decomposition d =
(ordinal, title, artist): the line is ordinal, dot-space, title,
space-dash-space, artist; the ordinal is a non-empty digit string; the
space-dash-space separator occurs in the line only at its claimed
position, and the dot-space separator occurs in the ordinal-title segment
only at its claimed position, so the shape is unambiguous. -/
def lineShape (line : List Char) (d : List Char × List Char × List Char) : Prop :=
  line = d.1 ++ dotSep ++ d.2.1 ++ dashSep ++ d.2.2 ∧
  d.1 ≠ [] ∧
  (∀ c ∈ d.1, c.isDigit = true) ∧
  occursOnlyAt dashSep line (d.1.length + dotSep.length + d.2.1.length) ∧
  occursOnlyAt dotSep (d.1 ++ dotSep ++ d.2.1) d.1.length

instance (line : List Char) (d : List Char × List Char × List Char) :
    Decidable (lineShape line d) := by
  unfold lineShape; infer_instance

/-- Field invariant of C10: unset, or a non-empty trimmed string. -/
def okField : Option (List Char) → Prop
  | none => True
  | some s => s ≠ [] ∧ pyStrip s = s

/-- Preference invariant of C10. -/
def prefsInv (p : Prefs) : Prop := okField p.mood ∧ okField p.genre

/-- The split worker never returns an empty list of parts. -/
theorem pySplitF_ne_nil (sep : List Char) (f : Nat) (l : List Char) :
    pySplitF sep f l ≠ [] := by
  match f, l with
  | _, [] => simp [pySplitF]
  | 0, c :: rest => simp [pySplitF]
  | f + 1, c :: rest =>
    unfold pySplitF
    split
    · simp
    · split <;> simp

/-- The split worker does not depend on the fuel, as long as the fuel is
at least the length of the list. -/
theorem pySplitF_fuel (sep : List Char) :
    ∀ f₁ f₂ l, l.length ≤ f₁ → l.length ≤ f₂ →
      pySplitF sep f₁ l = pySplitF sep f₂ l := by
  intro f₁
  induction f₁ with
  | zero =>
    intro f₂ l h₁ _
    have : l = [] := List.eq_nil_of_length_eq_zero (Nat.le_zero.mp h₁)
    subst this
    simp [pySplitF]
  | succ f ih =>
    intro f₂ l h₁ h₂
    match l with
    | [] => simp [pySplitF]
    | c :: rest =>
      match f₂ with
      | 0 => simp at h₂
      | g + 1 =>
        simp only [List.length_cons] at h₁ h₂
        show pySplitF sep (f + 1) (c :: rest) = pySplitF sep (g + 1) (c :: rest)
        rw [pySplitF, pySplitF]
        by_cases hc : (!sep.isEmpty && sep.isPrefixOf (c :: rest)) = true
        · rw [if_pos hc, if_pos hc]
          have hsep : 1 ≤ sep.length := by
            rcases sep with _ | ⟨s, ss⟩
            · simp at hc
            · simp
          have hlen : ((c :: rest).drop sep.length).length ≤ rest.length := by
            simp only [List.length_drop, List.length_cons]
            omega
          rw [ih g ((c :: rest).drop sep.length) (by omega) (by omega)]
        · rw [if_neg hc, if_neg hc]
          rw [ih g rest (by omega) (by omega)]

/-- Splitting the empty string yields one empty part. -/
theorem pySplit_nil (sep : List Char) : pySplit sep [] = [[]] := rfl

/-- Step of pySplit when the separator matches at the head. -/
theorem pySplit_cons_match (sep : List Char) (c : Char) (l : List Char)
    (hne : sep ≠ []) (hp : sep <+: (c :: l)) :
    pySplit sep (c :: l) = [] :: pySplit sep ((c :: l).drop sep.length) := by
  have hc : (!sep.isEmpty && sep.isPrefixOf (c :: l)) = true := by
    simp [List.isPrefixOf_iff_prefix, hp, hne]
  have hsep : 1 ≤ sep.length := by
    rcases sep with _ | ⟨s, ss⟩
    · exact absurd rfl hne
    · simp
  show pySplitF sep (c :: l).length (c :: l) = _
  simp only [List.length_cons]
  rw [pySplitF, if_pos hc]
  congr 1
  apply pySplitF_fuel
  · simp only [List.length_drop, List.length_cons]; omega
  · rfl

/-- Step of pySplit when the separator does not match at the head. -/
theorem pySplit_cons_nomatch (sep : List Char) (c : Char) (l : List Char)
    (hp : ¬ sep <+: (c :: l)) :
    ∃ h t, pySplit sep l = h :: t ∧ pySplit sep (c :: l) = (c :: h) :: t := by
  have hc : (!sep.isEmpty && sep.isPrefixOf (c :: l)) = false := by
    have : sep.isPrefixOf (c :: l) = false := by
      cases he : sep.isPrefixOf (c :: l)
      · rfl
      · exact absurd (List.isPrefixOf_iff_prefix.mp he) hp
    simp [this]
  obtain ⟨h, t, hht⟩ : ∃ h t, pySplitF sep l.length l = h :: t := by
    cases e : pySplitF sep l.length l with
    | nil => exact absurd e (pySplitF_ne_nil sep l.length l)
    | cons a b => exact ⟨a, b, rfl⟩
  refine ⟨h, t, hht, ?_⟩
  show pySplitF sep (c :: l).length (c :: l) = _
  simp only [List.length_cons]
  rw [pySplitF, if_neg (by simp [hc])]
  rw [show pySplitF sep l.length l = h :: t from hht]

/-- An occurrence at index zero is a prefix. -/
theorem occursAt_zero (p l : List Char) : occursAt p l 0 ↔ p <+: l := by
  simp [occursAt]

/-- Occurrences shift across a cons. -/
theorem occursAt_succ (p : List Char) (c : Char) (l : List Char) (i : Nat) :
    occursAt p (c :: l) (i + 1) ↔ occursAt p l i := by
  simp [occursAt]

/-- A non-empty pattern occurs only at indices below the length. -/
theorem occursAt_lt (p l : List Char) (i : Nat) (hne : p ≠ [])
    (h : occursAt p l i) : i < l.length := by
  have h1 : p.length ≤ (l.drop i).length := h.length_le
  have h2 : 1 ≤ p.length := by
    rcases p with _ | ⟨a, b⟩
    · exact absurd rfl hne
    · simp
  simp only [List.length_drop] at h1
  omega

/-- Occurrences shift across an append. -/
theorem occursAt_append (p x y : List Char) (j : Nat) :
    occursAt p (x ++ y) (x.length + j) ↔ occursAt p y j := by
  simp [occursAt, List.drop_append]

/-- A string with no occurrence of the separator is a single part. -/
theorem pySplit_eq_single (sep l : List Char)
    (h : ∀ i, ¬ occursAt sep l i) : pySplit sep l = [l] := by
  induction l with
  | nil => exact pySplit_nil sep
  | cons c rest ih =>
    have hp : ¬ sep <+: (c :: rest) := fun hc => h 0 ((occursAt_zero sep (c :: rest)).mpr hc)
    obtain ⟨hd, tl, h1, h2⟩ := pySplit_cons_nomatch sep c rest hp
    have hrest : pySplit sep rest = [rest] :=
      ih (fun i hi => h (i + 1) ((occursAt_succ sep c rest i).mpr hi))
    rw [hrest] at h1
    injection h1 with e1 e2
    subst e1; subst e2
    rw [h2]

/-- When the separator occurs exactly once, at the boundary, the split is
the two surrounding segments. -/
theorem pySplit_boundary (sep a b : List Char) (hne : sep ≠ [])
    (h : ∀ i, occursAt sep (a ++ sep ++ b) i → i = a.length) :
    pySplit sep (a ++ sep ++ b) = [a, b] := by
  induction a with
  | nil =>
    simp only [List.nil_append] at h ⊢
    rcases sep with _ | ⟨s, ss⟩
    · exact absurd rfl hne
    · have hp : (s :: ss) <+: (s :: ss) ++ b := ⟨b, rfl⟩
      rw [show (s :: ss) ++ b = s :: (ss ++ b) by simp] at hp ⊢
      rw [pySplit_cons_match (s :: ss) s (ss ++ b) hne hp]
      have hdrop : (s :: (ss ++ b)).drop (s :: ss).length = b := by
        rw [show s :: (ss ++ b) = (s :: ss) ++ b by simp]
        exact List.drop_left (s :: ss) b
      rw [hdrop]
      rw [pySplit_eq_single (s :: ss) b]
      intro j hj
      have : occursAt (s :: ss) (s :: (ss ++ b)) ((s :: ss).length + j) := by
        rw [show s :: (ss ++ b) = (s :: ss) ++ b by simp]
        exact (occursAt_append (s :: ss) (s :: ss) b j).mpr hj
      have := h ((s :: ss).length + j) this
      simp at this
  | cons c a' ih =>
    simp only [List.cons_append] at h ⊢
    have hp : ¬ sep <+: (c :: (a' ++ sep ++ b)) := by
      intro hc
      have := h 0 ((occursAt_zero sep _).mpr hc)
      simp at this
    obtain ⟨hd, tl, h1, h2⟩ := pySplit_cons_nomatch sep c (a' ++ sep ++ b) hp
    have hIH : pySplit sep (a' ++ sep ++ b) = [a', b] := by
      apply ih
      intro i hi
      have := h (i + 1) ((occursAt_succ sep c _ i).mpr hi)
      simp only [List.length_cons] at this
      omega
    rw [hIH] at h1
    injection h1 with e1 e2
    subst e1; subst e2
    rw [h2]

/-- dropWhile keeps some element failing the predicate when one exists. -/
theorem dropWhile_keeps {p : Char → Bool} {l : List Char} {x : Char}
    (hx : x ∈ l) (hpx : p x = false) :
    ∃ y ∈ l.dropWhile p, p y = false := by
  induction l with
  | nil => cases hx
  | cons c rest ih =>
    rw [List.dropWhile_cons]
    by_cases hc : p c = true
    · rw [if_pos hc]
      rcases List.mem_cons.mp hx with he | hm
      · subst he; rw [hpx] at hc; cases hc
      · exact ih hm
    · rw [if_neg hc]
      exact ⟨x, hx, hpx⟩

/-- A list containing a non-space character strips to a non-empty list. -/
theorem pyStrip_ne_nil {l : List Char} {x : Char} (hx : x ∈ l)
    (hpx : pyIsSpace x = false) : pyStrip l ≠ [] := by
  obtain ⟨y, hy, hpy⟩ := dropWhile_keeps hx hpx
  have hy' : y ∈ (l.dropWhile pyIsSpace).reverse := List.mem_reverse.mpr hy
  obtain ⟨z, hz, hpz⟩ := dropWhile_keeps hy' hpy
  unfold pyStrip
  intro hcontra
  rw [List.reverse_eq_nil_iff] at hcontra
  rw [hcontra] at hz
  cases hz

/-- The head of a dropWhile result fails the predicate. -/
theorem dropWhile_head? {p : Char → Bool} {l : List Char} {c : Char}
    (h : (l.dropWhile p).head? = some c) : p c = false := by
  induction l with
  | nil => cases h
  | cons a rest ih =>
    rw [List.dropWhile_cons] at h
    by_cases ha : p a = true
    · rw [if_pos ha] at h; exact ih h
    · rw [if_neg ha] at h
      injection h with h'
      subst h'
      simpa using ha

/-- dropWhile is the identity when the head fails the predicate. -/
theorem dropWhile_eq_self {p : Char → Bool} {l : List Char}
    (h : ∀ c, l.head? = some c → p c = false) : l.dropWhile p = l := by
  cases l with
  | nil => rfl
  | cons a rest =>
    rw [List.dropWhile_cons, if_neg]
    simp [h a rfl]

/-- The getLast of a dropWhile result is the getLast of the original. -/
theorem dropWhile_getLast? {p : Char → Bool} {l : List Char} {c : Char}
    (h : (l.dropWhile p).getLast? = some c) : l.getLast? = some c := by
  induction l with
  | nil => cases h
  | cons a rest ih =>
    rw [List.dropWhile_cons] at h
    by_cases ha : p a = true
    · rw [if_pos ha] at h
      have hr := ih h
      rcases rest with _ | ⟨b, rest'⟩
      · cases hr
      · rw [List.getLast?_cons_cons]; exact hr
    · rw [if_neg ha] at h; exact h

/-- Both ends of a stripped list fail the whitespace predicate. -/
theorem pyStrip_ends (l : List Char) :
    (∀ c, (pyStrip l).head? = some c → pyIsSpace c = false) ∧
    (∀ c, (pyStrip l).getLast? = some c → pyIsSpace c = false) := by
  constructor
  · intro c hc
    unfold pyStrip at hc
    rw [List.head?_reverse] at hc
    have h2 := dropWhile_getLast? hc
    rw [List.getLast?_reverse] at h2
    exact dropWhile_head? h2
  · intro c hc
    unfold pyStrip at hc
    rw [List.getLast?_reverse] at hc
    exact dropWhile_head? hc

/-- Stripping a list whose ends already fail the predicate is the identity. -/
theorem pyStrip_eq_self {l : List Char}
    (hh : ∀ c, l.head? = some c → pyIsSpace c = false)
    (hl : ∀ c, l.getLast? = some c → pyIsSpace c = false) : pyStrip l = l := by
  unfold pyStrip
  rw [dropWhile_eq_self hh]
  rw [dropWhile_eq_self (fun c hc => hl c (by rwa [List.head?_reverse] at hc))]
  exact List.reverse_reverse l

/-- Stripping is idempotent. -/
theorem pyStrip_idem (l : List Char) : pyStrip (pyStrip l) = pyStrip l :=
  pyStrip_eq_self (pyStrip_ends l).1 (pyStrip_ends l).2

/-- Lowering a character does not change whether it is whitespace. -/
theorem pyIsSpace_pyToLower (c : Char) : pyIsSpace (pyToLower c) = pyIsSpace c := by
  unfold pyToLower
  by_cases h : c ∈ upperChars
  · rw [if_pos h]
    fin_cases h <;> decide
  · rw [if_neg h]

/-- Lowering distributes over append. -/
theorem pyLower_append (x y : List Char) :
    pyLower (x ++ y) = pyLower x ++ pyLower y :=
  List.map_append pyToLower x y

/-- Lowering commutes with stripping. -/
theorem pyStrip_pyLower (l : List Char) : pyStrip (pyLower l) = pyLower (pyStrip l) := by
  have hfun : (pyIsSpace ∘ pyToLower) = pyIsSpace := funext pyIsSpace_pyToLower
  unfold pyStrip pyLower
  rw [List.dropWhile_map, hfun, ← List.map_reverse, List.dropWhile_map, hfun,
    ← List.map_reverse]

/-- An infix whose first character is not whitespace survives a leading
dropWhile. -/
theorem infix_dropWhile {pat l : List Char}
    (hh : ∀ c, pat.head? = some c → pyIsSpace c = false)
    (h : pat <:+: l) : pat <:+: l.dropWhile pyIsSpace := by
  obtain ⟨s, t, rfl⟩ := h
  rcases pat with _ | ⟨c, pat'⟩
  · exact ⟨[], (s ++ [] ++ t).dropWhile pyIsSpace, by simp⟩
  · have hc : pyIsSpace c = false := hh c rfl
    rw [List.append_assoc, List.dropWhile_append]
    by_cases hs : (s.dropWhile pyIsSpace).isEmpty = true
    · rw [if_pos hs]
      rw [show (c :: pat') ++ t = c :: (pat' ++ t) from rfl]
      rw [List.dropWhile_cons, if_neg (by simp [hc])]
      exact ⟨[], t, by simp⟩
    · rw [if_neg hs]
      exact ⟨s.dropWhile pyIsSpace, t, by simp⟩

/-- An infix whose end characters are not whitespace survives stripping. -/
theorem infix_pyStrip {pat l : List Char}
    (hh : ∀ c, pat.head? = some c → pyIsSpace c = false)
    (hl : ∀ c, pat.getLast? = some c → pyIsSpace c = false)
    (h : pat <:+: l) : pat <:+: pyStrip l := by
  have step1 : pat <:+: l.dropWhile pyIsSpace := infix_dropWhile hh h
  have hrev : pat.reverse <:+: (l.dropWhile pyIsSpace).reverse := by
    obtain ⟨s, t, he⟩ := step1
    refine ⟨t.reverse, s.reverse, ?_⟩
    rw [← he]; simp
  have step2 : pat.reverse <:+: ((l.dropWhile pyIsSpace).reverse).dropWhile pyIsSpace := by
    apply infix_dropWhile _ hrev
    intro c hc
    rw [List.head?_reverse] at hc
    exact hl c hc
  obtain ⟨s, t, he⟩ := step2
  refine ⟨t.reverse, s.reverse, ?_⟩
  unfold pyStrip
  rw [← he]
  simp

/-- A digit is not whitespace. -/
theorem pyIsSpace_of_isDigit {c : Char} (h : c.isDigit = true) : pyIsSpace c = false := by
  cases hs : pyIsSpace c
  · rfl
  · exfalso
    simp [pyIsSpace] at hs
    rcases hs with ((((rfl | rfl) | rfl) | rfl) | rfl) | rfl <;> exact absurd h (by decide)

/-- Unbounded form of occursOnlyAt for a non-empty pattern. -/
theorem occursOnlyAt_elim {pat l : List Char} {k : Nat} (hne : pat ≠ [])
    (h : occursOnlyAt pat l k) : ∀ i, occursAt pat l i → i = k :=
  fun i hi => h i (occursAt_lt pat l i hne hi) hi

/-- A line of the claimed shape is parsed into its trimmed title-artist
pair. -/
theorem parseLine_of_shape (line : List Char) (d : List Char × List Char × List Char)
    (h : lineShape line d) :
    parseLine line = some (some (pyStrip d.2.1, pyStrip d.2.2)) := by
  obtain ⟨n, title, artist⟩ := d
  obtain ⟨heq, hn, hdig, hdash, hdot⟩ := h
  dsimp only at heq hdig hdash hdot ⊢
  rcases n with _ | ⟨c0, n'⟩
  · exact absurd rfl hn
  have hc0d : c0.isDigit = true := hdig c0 (by simp)
  have hc0s : pyIsSpace c0 = false := pyIsSpace_of_isDigit hc0d
  have hline : line = c0 :: (n' ++ dotSep ++ title ++ dashSep ++ artist) := by
    rw [heq]; simp
  have hmem : c0 ∈ line := by rw [hline]; exact List.mem_cons_self c0 _
  have hstrip : pyStrip line ≠ [] := pyStrip_ne_nil hmem hc0s
  have hie : (pyStrip line).isEmpty = false := by
    cases e : pyStrip line with
    | nil => exact absurd e hstrip
    | cons a b => rfl
  have hfd : firstIsDigit line = true := by
    rw [hline]; simpa [firstIsDigit] using hc0d
  have hguard : (!(pyStrip line).isEmpty && firstIsDigit line) = true := by
    simp [hie, hfd]
  have hsplit1 : pySplit dashSep line = [(c0 :: n') ++ dotSep ++ title, artist] := by
    rw [heq]
    apply pySplit_boundary dashSep _ artist (by decide)
    intro i hi
    rw [← heq] at hi
    have hk := occursOnlyAt_elim (by decide) hdash i hi
    simp only [List.length_append, List.length_cons] at hk ⊢
    omega
  have hsplit2 : pySplit dotSep ((c0 :: n') ++ dotSep ++ title) = [c0 :: n', title] := by
    apply pySplit_boundary dotSep (c0 :: n') title (by decide)
    intro i hi
    exact occursOnlyAt_elim (by decide) hdot i hi
  unfold parseLine
  rw [if_pos hguard, hsplit1]
  simp only [hsplit2]

/-- Folding the parser over lines that all match the shape yields exactly
the trimmed pairs, in order. -/
theorem extractLines_of_shape (ls : List (List Char))
    (ds : List (List Char × List Char × List Char))
    (h : List.Forall₂ lineShape ls ds) :
    extractLines ls = some (ds.map (fun d => (pyStrip d.2.1, pyStrip d.2.2))) := by
  induction h with
  | nil => rfl
  | cons hd tl ih =>
    simp only [extractLines, parseLine_of_shape _ _ hd, ih, Option.map, List.map]

/-- The fold succeeds when no line raises. -/
theorem extractLines_total {ls : List (List Char)}
    (h : ∀ line ∈ ls, parseLine line ≠ none) :
    ∃ l, extractLines ls = some l := by
  induction ls with
  | nil => exact ⟨[], rfl⟩
  | cons a rest ih =>
    obtain ⟨l, hl⟩ := ih (fun x hx => h x (List.mem_cons_of_mem a hx))
    have ha := h a (List.mem_cons_self a rest)
    cases e : parseLine a with
    | none => exact absurd e ha
    | some o =>
      cases o with
      | none =>
        refine ⟨l, ?_⟩
        simp only [extractLines, e, hl]
      | some p =>
        refine ⟨p :: l, ?_⟩
        simp only [extractLines, e, hl, Option.map]

/-- The fold yields at most one pair per line. -/
theorem extractLines_length {ls : List (List Char)} {l : List (List Char × List Char)}
    (h : extractLines ls = some l) : l.length ≤ ls.length := by
  induction ls generalizing l with
  | nil =>
    simp only [extractLines] at h
    injection h with h'
    subst h'
    simp
  | cons a rest ih =>
    simp only [extractLines] at h
    cases e : parseLine a with
    | none => rw [e] at h; cases h
    | some o =>
      rw [e] at h
      cases o with
      | none =>
        have := ih h
        simp only [List.length_cons]
        omega
      | some p =>
        cases hr : extractLines rest with
        | none => rw [hr] at h; cases h
        | some l' =>
          rw [hr] at h
          simp only [Option.map] at h
          injection h with h'
          subst h'
          have := ih hr
          simp only [List.length_cons]
          omega

/-- Claim C1 (confirmed): for every input text in which every line has the
unambiguous shape ordinal, dot-space, title, space-dash-space, artist,
with a digit-led ordinal, extract_songs returns exactly the sequence of
trimmed (title, artist) pairs of those lines, in input line order. -/
theorem c1_extract_songs_exact (text : List Char)
    (ds : List (List Char × List Char × List Char))
    (h : List.Forall₂ lineShape (pySplit ['\n'] text) ds) :
    extract_songs text = some (ds.map (fun d => (pyStrip d.2.1, pyStrip d.2.2))) :=
  extractLines_of_shape _ _ h

/-- Witness for C1 at the spec's own example input. -/
theorem c1_witness :
    extract_songs "1. Happy - Pharrell Williams\n2. Good Vibrations - The Beach Boys".data
      = some ([("1".data, "Happy".data, "Pharrell Williams".data),
               ("2".data, "Good Vibrations".data, "The Beach Boys".data)].map
                (fun d => (pyStrip d.2.1, pyStrip d.2.2))) :=
  c1_extract_songs_exact _ _
    (List.Forall₂.cons (by decide) (List.Forall₂.cons (by decide) List.Forall₂.nil))

/-- Claim C2 counterexample: a line that begins with a digit and splits on
space-dash-space into exactly two segments but whose first segment lacks
the dot-space separator makes extract_songs raise IndexError (modelled as
none), and the following well-formed line is not processed either. -/
theorem c2_counterexample :
    extract_songs "1 Song - Artist\n2. Good - Artist".data = none := by decide

/-- Claim C2 as amended: extract_songs terminates normally on exactly the
inputs none of whose lines hits the unguarded index, that is, when every
line either fails the digit guard, or does not split into exactly two
space-dash-space segments (such lines are skipped), or contains the
dot-space separator in its first segment. -/
theorem c2_amended_no_raise (text : List Char)
    (h : ∀ line ∈ pySplit ['\n'] text, parseLine line ≠ none) :
    ∃ l, extract_songs text = some l :=
  extractLines_total h

/-- Witness for C2 at an input whose malformed lines are skipped. -/
theorem c2_witness :
    ∃ l, extract_songs "Intro text\n1. OnlyOneField\n2. A - B".data = some l :=
  c2_amended_no_raise _ (by decide)

/-- Claim C4 counterexample: eleven well-formed lines produce eleven
entries, so the parser output is not bounded by ten. -/
theorem c4_counterexample :
    ((extract_songs ("1. A - B\n2. A - B\n3. A - B\n4. A - B\n5. A - B\n6. A - B\n7. A - B\n8. A - B\n9. A - B\n10. A - B\n11. A - B".data)).getD []).length = 11 := by
  decide

/-- Claim C4 as amended: when extract_songs returns normally, the number
of extracted entries is bounded by the number of input lines; no bound of
ten is imposed. -/
theorem c4_amended_length (text : List Char) (l : List (List Char × List Char))
    (h : extract_songs text = some l) :
    l.length ≤ (pySplit ['\n'] text).length :=
  extractLines_length h

/-- Witness for C4 on a two-line input. -/
theorem c4_witness :
    [("A".data, "B".data)].length ≤ (pySplit ['\n'] "1. A - B\nx".data).length :=
  c4_amended_length "1. A - B\nx".data [("A".data, "B".data)] (by decide)

/-- A non-empty list has isEmpty false. -/
theorem ne_nil_isEmpty {α : Type} {l : List α} (h : l ≠ []) : l.isEmpty = false := by
  cases e : l with
  | nil => exact absurd e h
  | cons x xs => rfl

/-- Discharge the head condition of infix_pyStrip from a computed head. -/
theorem head?_cond_of_eq {pat : List Char} (d : Char) (hd : pat.head? = some d)
    (hds : pyIsSpace d = false) :
    ∀ c, pat.head? = some c → pyIsSpace c = false := by
  intro c hc
  rw [hd] at hc
  injection hc with h'
  subst h'
  exact hds

/-- Discharge the last condition of infix_pyStrip from a computed last. -/
theorem getLast?_cond_of_eq {pat : List Char} (d : Char) (hd : pat.getLast? = some d)
    (hds : pyIsSpace d = false) :
    ∀ c, pat.getLast? = some c → pyIsSpace c = false := by
  intro c hc
  rw [hd] at hc
  injection hc with h'
  subst h'
  exact hds

/-- When each marker occurs exactly once and the mood marker comes first,
the marker split yields the trimmed segment between the markers and the
trimmed segment after the genre marker. -/
theorem extractMoodGenre_of_markers (a b c : List Char)
    (hm : occursOnlyAt moodMarker (a ++ moodMarker ++ b ++ genreMarker ++ c) a.length)
    (hg : occursOnlyAt genreMarker (a ++ moodMarker ++ b ++ genreMarker ++ c)
            (a.length + moodMarker.length + b.length)) :
    extractMoodGenre (a ++ moodMarker ++ b ++ genreMarker ++ c)
      = some (pyStrip b, pyStrip c) := by
  have hmne : moodMarker ≠ [] := by decide
  have hgne : genreMarker ≠ [] := by decide
  have htext : a ++ moodMarker ++ b ++ genreMarker ++ c
      = a ++ moodMarker ++ (b ++ genreMarker ++ c) := by
    simp [List.append_assoc]
  have hsplit1 : pySplit moodMarker (a ++ moodMarker ++ b ++ genreMarker ++ c)
      = [a, b ++ genreMarker ++ c] := by
    rw [htext]
    apply pySplit_boundary moodMarker a (b ++ genreMarker ++ c) hmne
    intro i hi
    rw [← htext] at hi
    exact occursOnlyAt_elim hmne hm i hi
  have hsplit2 : pySplit genreMarker (a ++ moodMarker ++ b ++ genreMarker ++ c)
      = [a ++ moodMarker ++ b, c] := by
    apply pySplit_boundary genreMarker (a ++ moodMarker ++ b) c hgne
    intro i hi
    have := occursOnlyAt_elim hgne hg i hi
    simp only [List.length_append] at this ⊢
    omega
  have hsplit3 : pySplit genreMarker (b ++ genreMarker ++ c) = [b, c] := by
    apply pySplit_boundary genreMarker b c hgne
    intro j hj
    have hshift : occursAt genreMarker ((a ++ moodMarker) ++ (b ++ genreMarker ++ c))
        ((a ++ moodMarker).length + j) := (occursAt_append _ _ _ j).mpr hj
    rw [show (a ++ moodMarker) ++ (b ++ genreMarker ++ c)
          = a ++ moodMarker ++ b ++ genreMarker ++ c by simp [List.append_assoc]] at hshift
    have := occursOnlyAt_elim hgne hg _ hshift
    simp only [List.length_append] at this
    omega
  unfold extractMoodGenre
  rw [hsplit1, hsplit2]
  simp only [hsplit3, List.headD]

/-- The two extracted fields are trims, so stripping them again changes
nothing. -/
theorem extractMoodGenre_strip {t m g : List Char}
    (h : extractMoodGenre t = some (m, g)) :
    pyStrip m = m ∧ pyStrip g = g := by
  cases e1 : pySplit moodMarker t with
  | nil =>
    have : extractMoodGenre t = none := by unfold extractMoodGenre; rw [e1]
    rw [this] at h; cases h
  | cons x xs =>
    cases xs with
    | nil =>
      have : extractMoodGenre t = none := by unfold extractMoodGenre; rw [e1]
      rw [this] at h; cases h
    | cons m1 rest =>
      cases e2 : pySplit genreMarker t with
      | nil =>
        have : extractMoodGenre t = none := by unfold extractMoodGenre; rw [e1, e2]
        rw [this] at h; cases h
      | cons y ys =>
        cases ys with
        | nil =>
          have : extractMoodGenre t = none := by unfold extractMoodGenre; rw [e1, e2]
          rw [this] at h; cases h
        | cons g1 rest2 =>
          have he : extractMoodGenre t
              = some (pyStrip ((pySplit genreMarker m1).headD []), pyStrip g1) := by
            unfold extractMoodGenre; rw [e1, e2]
          rw [he] at h
          injection h with h'
          have hm := congrArg Prod.fst h'
          have hg := congrArg Prod.snd h'
          dsimp only at hm hg
          rw [← hm, ← hg]
          exact ⟨pyStrip_idem _, pyStrip_idem _⟩

/-- The success outcome carries exactly the two non-empty trimmed fields. -/
theorem classify_success_shape {t m g : List Char}
    (h : classify_response t = ExtractOutcome.success m g) :
    m ≠ [] ∧ pyStrip m = m ∧ g ≠ [] ∧ pyStrip g = g := by
  unfold classify_response at h
  by_cases h1 : blockedLower <:+: pyLower t
  · rw [if_pos h1] at h; cases h
  · rw [if_neg h1] at h
    by_cases h2 : moodLower <:+: pyLower t ∧ genreLower <:+: pyLower t
    · rw [if_pos h2] at h
      cases e : extractMoodGenre t with
      | none => rw [e] at h; cases h
      | some p =>
        obtain ⟨mf, gf⟩ := p
        rw [e] at h
        simp only at h
        by_cases h3 : (mf.isEmpty || gf.isEmpty) = true
        · rw [if_pos h3] at h; cases h
        · rw [if_neg h3] at h
          injection h with hm hg
          subst hm; subst hg
          simp only [Bool.or_eq_true, not_or, List.isEmpty_eq_true] at h3
          obtain ⟨hs1, hs2⟩ := extractMoodGenre_strip e
          exact ⟨h3.1, hs1, h3.2, hs2⟩
    · rw [if_neg h2] at h; cases h

/-- Claim C3 counterexample: the text "MOOD: happy GENRE: pop" contains
both markers case-insensitively and no filtered marker, yet the extractor
ends in the parse-failure outcome (the exact-case splits raise IndexError)
instead of yielding the pair (happy, pop). -/
theorem c3_counterexample :
    moodLower <:+: pyLower "MOOD: happy GENRE: pop".data ∧
    genreLower <:+: pyLower "MOOD: happy GENRE: pop".data ∧
    ¬ blockedLower <:+: pyLower "MOOD: happy GENRE: pop".data ∧
    classify_response "MOOD: happy GENRE: pop".data = ExtractOutcome.parseFailure := by
  decide

/-- Claim C3 as amended (corrected): the split markers are matched with
their exact case.  For every text with no filtered marker in which the
exact-case markers "Mood:" and "Genre:" occur exactly once each, in that
order, and both extracted fields trim to non-empty strings, the extractor
yields as mood the trimmed text between the markers and as genre the
trimmed text after the genre marker. -/
theorem c3_amended_exact_case (a b c : List Char)
    (hblock : ¬ blockedLower <:+: pyLower (a ++ moodMarker ++ b ++ genreMarker ++ c))
    (hm : occursOnlyAt moodMarker (a ++ moodMarker ++ b ++ genreMarker ++ c) a.length)
    (hg : occursOnlyAt genreMarker (a ++ moodMarker ++ b ++ genreMarker ++ c)
            (a.length + moodMarker.length + b.length))
    (hb : pyStrip b ≠ []) (hc : pyStrip c ≠ []) :
    classify_response (a ++ moodMarker ++ b ++ genreMarker ++ c)
      = ExtractOutcome.success (pyStrip b) (pyStrip c) := by
  have hmood : moodLower <:+: pyLower (a ++ moodMarker ++ b ++ genreMarker ++ c) := by
    refine ⟨pyLower a, pyLower (b ++ genreMarker ++ c), ?_⟩
    rw [show moodLower = pyLower moodMarker from rfl]
    rw [← pyLower_append, ← pyLower_append]
    congr 1
    simp [List.append_assoc]
  have hgenre : genreLower <:+: pyLower (a ++ moodMarker ++ b ++ genreMarker ++ c) := by
    refine ⟨pyLower (a ++ moodMarker ++ b), pyLower c, ?_⟩
    rw [show genreLower = pyLower genreMarker from rfl]
    rw [← pyLower_append, ← pyLower_append]
  unfold classify_response
  rw [if_neg hblock, if_pos ⟨hmood, hgenre⟩, extractMoodGenre_of_markers a b c hm hg]
  simp only [ne_nil_isEmpty hb, ne_nil_isEmpty hc, Bool.or_self, Bool.false_or]
  rw [if_neg (by simp)]

/-- Witness for C3 at the spec's example "Mood: happy\nGenre: pop". -/
theorem c3_witness :
    classify_response ("".data ++ moodMarker ++ " happy\n".data ++ genreMarker ++ " pop".data)
      = ExtractOutcome.success (pyStrip " happy\n".data) (pyStrip " pop".data) :=
  c3_amended_exact_case "".data " happy\n".data " pop".data
    (by decide) (by decide) (by decide) (by decide) (by decide)

/-- Claim C5 (confirmed): a generation response containing the blocked
marker in any letter case makes the handler return the fixed retry
message, for every playlist response, every catalog behaviour and every
prior state; the state is unchanged, so no preferences are committed, and
the reply does not depend on the playlist oracle, so no generation result
is used. -/
theorem c5_filtered_fixed_reply (classifyRaw playlistRaw : List Char)
    (search : List Char → Option (List (List Char))) (cat : CatalogOracle) (st : Prefs)
    (h : blockedLower <:+: pyLower classifyRaw) :
    music_assistant_llm classifyRaw playlistRaw search cat st = (some filteredMsg, st) := by
  have h2 : blockedLower <:+: pyLower (pyStrip classifyRaw) := by
    rw [← pyStrip_pyLower]
    exact infix_pyStrip (head?_cond_of_eq 'b' (by decide) (by decide))
      (getLast?_cond_of_eq 'g' (by decide) (by decide)) h
  have hcl : classify_response (pyStrip classifyRaw) = ExtractOutcome.filtered := by
    unfold classify_response
    rw [if_pos h2]
  simp [music_assistant_llm, hcl]

/-- Witness for C5 with a mixed-case blocked marker. -/
theorem c5_witness :
    music_assistant_llm "Response Blocked by Content Filtering today".data "x".data
        (fun _ => none)
        ⟨Except.ok (), fun _ => Except.ok ⟨"i".data, "u".data⟩, fun _ _ => Except.ok ()⟩
        ⟨some "a".data, none⟩
      = (some filteredMsg, ⟨some "a".data, none⟩) :=
  c5_filtered_fixed_reply _ _ _ _ _ (by decide)

/-- Claim C9 (confirmed): on the filtered, parse-failure and incomplete
(pass-through) outcomes the handler returns a reply with the session
preferences exactly as they were; only the successful-extraction outcome
is excluded by the hypothesis. -/
theorem c9_state_unchanged (classifyRaw playlistRaw : List Char)
    (search : List Char → Option (List (List Char))) (cat : CatalogOracle) (st : Prefs)
    (h : isSuccess (classify_response (pyStrip classifyRaw)) = false) :
    ∃ reply, music_assistant_llm classifyRaw playlistRaw search cat st = (some reply, st) := by
  cases hcl : classify_response (pyStrip classifyRaw) with
  | filtered => exact ⟨filteredMsg, by simp [music_assistant_llm, hcl]⟩
  | parseFailure => exact ⟨parseFailMsg, by simp [music_assistant_llm, hcl]⟩
  | passThrough => exact ⟨pyStrip classifyRaw, by simp [music_assistant_llm, hcl]⟩
  | success m g => rw [hcl] at h; simp [isSuccess] at h

/-- Witness for C9 at a clarification response with no markers. -/
theorem c9_witness :
    ∃ reply, music_assistant_llm "What would you like to hear?".data "x".data
        (fun _ => none)
        ⟨Except.ok (), fun _ => Except.ok ⟨"i".data, "u".data⟩, fun _ _ => Except.ok ()⟩
        sessionInit
      = (some reply, sessionInit) :=
  c9_state_unchanged _ _ _ _ _ (by decide)

/-- On the success outcome the final state holds exactly the two fields. -/
theorem handler_snd_success {classifyRaw playlistRaw : List Char}
    {search : List Char → Option (List (List Char))} {cat : CatalogOracle}
    {st : Prefs} {m g : List Char}
    (hcl : classify_response (pyStrip classifyRaw) = ExtractOutcome.success m g) :
    (music_assistant_llm classifyRaw playlistRaw search cat st).2 = ⟨some m, some g⟩ := by
  simp only [music_assistant_llm, hcl]
  split
  · rfl
  · split
    · rfl
    · split
      · split <;> rfl
      · rfl

/-- Claim C10 (confirmed): the initial preferences satisfy the invariant;
every processed message either leaves both preference fields unchanged or
assigns both of them, in the same step, to non-empty trimmed strings; and
the invariant that each field is unset or a non-empty trimmed string is
preserved.  In particular a set field is never reset to None: it is either
kept or overwritten by a non-empty trimmed string. -/
theorem c10_preferences_invariant :
    prefsInv sessionInit ∧
    ∀ (classifyRaw playlistRaw : List Char)
      (search : List Char → Option (List (List Char))) (cat : CatalogOracle) (st : Prefs),
      ((music_assistant_llm classifyRaw playlistRaw search cat st).2 = st ∨
        (∃ m g, m ≠ [] ∧ pyStrip m = m ∧ g ≠ [] ∧ pyStrip g = g ∧
          (music_assistant_llm classifyRaw playlistRaw search cat st).2
            = ⟨some m, some g⟩)) ∧
      (prefsInv st → prefsInv (music_assistant_llm classifyRaw playlistRaw search cat st).2) := by
  refine ⟨⟨trivial, trivial⟩, ?_⟩
  intro classifyRaw playlistRaw search cat st
  have hmain : (music_assistant_llm classifyRaw playlistRaw search cat st).2 = st ∨
      (∃ m g, m ≠ [] ∧ pyStrip m = m ∧ g ≠ [] ∧ pyStrip g = g ∧
        (music_assistant_llm classifyRaw playlistRaw search cat st).2 = ⟨some m, some g⟩) := by
    cases hcl : classify_response (pyStrip classifyRaw) with
    | filtered => left; simp [music_assistant_llm, hcl]
    | parseFailure => left; simp [music_assistant_llm, hcl]
    | passThrough => left; simp [music_assistant_llm, hcl]
    | success m g =>
      right
      obtain ⟨h1, h2, h3, h4⟩ := classify_success_shape hcl
      exact ⟨m, g, h1, h2, h3, h4, handler_snd_success hcl⟩
  refine ⟨hmain, ?_⟩
  intro hst
  rcases hmain with heq | ⟨m, g, h1, h2, h3, h4, heq⟩
  · rw [heq]; exact hst
  · rw [heq]; exact ⟨⟨h1, h2⟩, h3, h4⟩

/-- Witness for C10: the invariant holds after a concrete message
processed from the initial state. -/
theorem c10_witness :
    prefsInv (music_assistant_llm "Mood: calm\nGenre: pop".data "x".data (fun _ => none)
      ⟨Except.ok (), fun _ => Except.ok ⟨"i".data, "u".data⟩, fun _ _ => Except.ok ()⟩
      sessionInit).2 :=
  (c10_preferences_invariant.2 "Mood: calm\nGenre: pop".data "x".data (fun _ => none)
      ⟨Except.ok (), fun _ => Except.ok ⟨"i".data, "u".data⟩, fun _ _ => Except.ok ()⟩
      sessionInit).2 ⟨trivial, trivial⟩

/-- Claim C6 (confirmed): for every search behaviour, the resolver output
is exactly the first-result uris of the songs whose lookup succeeded with
at least one match, in input order (a filterMap), and its length is
bounded by the input length; a raising lookup only drops its own song. -/
theorem c6_search_best_effort (oracle : List Char → Option (List (List Char)))
    (songs : List (List Char × List Char)) :
    search_songs oracle songs
        = songs.filterMap (fun sa =>
            match oracle (searchQuery sa.1 sa.2) with
            | some (u :: _) => some u
            | _ => none) ∧
      (search_songs oracle songs).length ≤ songs.length := by
  have hchar : search_songs oracle songs
      = songs.filterMap (fun sa =>
          match oracle (searchQuery sa.1 sa.2) with
          | some (u :: _) => some u
          | _ => none) := by
    induction songs with
    | nil => rfl
    | cons sa rest ih =>
      obtain ⟨song, artist⟩ := sa
      rcases e : oracle (searchQuery song artist) with _ | (_ | ⟨u, us⟩) <;>
        simp [search_songs, List.filterMap_cons, e, ih]
  exact ⟨hchar, by rw [hchar]; exact List.length_filterMap_le _ _⟩

/-- Claim C7 (confirmed): the publisher never raises past its boundary;
each failing step (auth, creation, add-items on a non-empty batch) yields
the no-URL outcome, and when every needed step succeeds the public link
of the created playlist is returned. -/
theorem c7_publish_no_raise (cat : CatalogOracle) (nm : List Char)
    (uris : List (List Char)) :
    (cat.auth = Except.error () → create_spotify_playlist cat nm uris = none) ∧
    (cat.create nm = Except.error () → create_spotify_playlist cat nm uris = none) ∧
    (∀ p, cat.create nm = Except.ok p → uris ≠ [] →
        cat.addItems p.pid uris = Except.error () →
        create_spotify_playlist cat nm uris = none) ∧
    (∀ p, cat.auth = Except.ok () → cat.create nm = Except.ok p →
        (uris = [] ∨ cat.addItems p.pid uris = Except.ok ()) →
        create_spotify_playlist cat nm uris = some p.spotifyUrl) := by
  refine ⟨?_, ?_, ?_, ?_⟩
  · intro h
    simp [create_spotify_playlist, h]
  · intro h
    cases ha : cat.auth with
    | error u => simp [create_spotify_playlist, ha]
    | ok u => simp [create_spotify_playlist, ha, h]
  · intro p hc hu ha
    cases hauth : cat.auth with
    | error u => simp [create_spotify_playlist, hauth]
    | ok u => simp [create_spotify_playlist, hauth, hc, ne_nil_isEmpty hu, ha]
  · intro p hauth hc hor
    rcases hor with rfl | hadd
    · simp [create_spotify_playlist, hauth, hc]
    · cases he : uris.isEmpty
      · simp [create_spotify_playlist, hauth, hc, he, hadd]
      · simp [create_spotify_playlist, hauth, hc, he]

/-- Witness for C7: a failing and a succeeding catalog behaviour. -/
theorem c7_witness :
    create_spotify_playlist ⟨Except.error (), fun _ => Except.ok ⟨"i".data, "u".data⟩,
        fun _ _ => Except.ok ()⟩ "n".data [] = none ∧
    create_spotify_playlist ⟨Except.ok (), fun _ => Except.ok ⟨"i".data, "u".data⟩,
        fun _ _ => Except.ok ()⟩ "n".data ["t".data] = some "u".data :=
  ⟨(c7_publish_no_raise ⟨Except.error (), fun _ => Except.ok ⟨"i".data, "u".data⟩,
      fun _ _ => Except.ok ()⟩ "n".data []).1 rfl,
   (c7_publish_no_raise ⟨Except.ok (), fun _ => Except.ok ⟨"i".data, "u".data⟩,
      fun _ _ => Except.ok ()⟩ "n".data ["t".data]).2.2.2
     ⟨"i".data, "u".data⟩ rfl rfl (Or.inr rfl)⟩

/-- Claim C8 counterexample: preferences get committed and the playlist
text is non-empty, yet no reply at all is produced, because extract_songs
raises on the malformed playlist line; so the final reply does not consist
of the playlist text plus a link or a notice. -/
theorem c8_counterexample :
    music_assistant_llm "Mood: relaxed\nGenre: jazz".data "1 Song - Artist".data
        (fun _ => none)
        ⟨Except.ok (), fun _ => Except.ok ⟨"i".data, "u".data⟩, fun _ _ => Except.ok ()⟩
        sessionInit
      = (none, ⟨some "relaxed".data, some "jazz".data⟩) := by
  decide

/-- Claim C8 as amended: when preferences are committed, the playlist text
is non-empty and the playlist text parses without raising, the reply is
the playlist text followed by exactly one of the share-link line (when
publishing succeeded with a truthy, that is non-empty, url) or the fixed
degraded-mode notice (when publishing failed or returned an empty url,
both falsy at line 165); the playlist text is present in both cases. -/
theorem c8_reply_composition (classifyRaw playlistRaw : List Char)
    (search : List Char → Option (List (List Char))) (cat : CatalogOracle) (st : Prefs)
    (m g : List Char) (songs : List (List Char × List Char))
    (hcl : classify_response (pyStrip classifyRaw) = ExtractOutcome.success m g)
    (hpt : pyStrip playlistRaw ≠ [])
    (hsongs : extract_songs (pyStrip playlistRaw) = some songs) :
    ∃ suffix,
      music_assistant_llm classifyRaw playlistRaw search cat st
        = (some (pyStrip playlistRaw ++ suffix), ⟨some m, some g⟩) ∧
      ((∃ url, create_spotify_playlist cat (playlistName m g) (search_songs search songs)
           = some url ∧ url ≠ [] ∧ suffix = listenIntro ++ url) ∨
        ((create_spotify_playlist cat (playlistName m g) (search_songs search songs) = none ∨
            create_spotify_playlist cat (playlistName m g) (search_songs search songs)
              = some []) ∧
          suffix = degradedNotice)) := by
  have hie : (pyStrip playlistRaw).isEmpty = false := ne_nil_isEmpty hpt
  cases hurl : create_spotify_playlist cat (playlistName m g) (search_songs search songs) with
  | none =>
    refine ⟨degradedNotice, ?_, Or.inr ⟨Or.inl rfl, rfl⟩⟩
    simp [music_assistant_llm, hcl, hie, hsongs, hurl]
  | some url =>
    rcases url with _ | ⟨uc, urest⟩
    · refine ⟨degradedNotice, ?_, Or.inr ⟨Or.inr rfl, rfl⟩⟩
      simp [music_assistant_llm, hcl, hie, hsongs, hurl]
    · refine ⟨listenIntro ++ (uc :: urest), ?_, Or.inl ⟨uc :: urest, rfl, by simp, rfl⟩⟩
      simp [music_assistant_llm, hcl, hie, hsongs, hurl, List.append_assoc]

/-- Witness for C8 on a well-formed one-line playlist with a succeeding
catalog. -/
theorem c8_witness :
    ∃ suffix,
      music_assistant_llm "Mood: relaxed\nGenre: jazz".data "1. A - B".data (fun _ => none)
          ⟨Except.ok (), fun _ => Except.ok ⟨"i".data, "u".data⟩, fun _ _ => Except.ok ()⟩
          sessionInit
        = (some (pyStrip "1. A - B".data ++ suffix), ⟨some "relaxed".data, some "jazz".data⟩) ∧
      ((∃ url, create_spotify_playlist
            ⟨Except.ok (), fun _ => Except.ok ⟨"i".data, "u".data⟩, fun _ _ => Except.ok ()⟩
            (playlistName "relaxed".data "jazz".data)
            (search_songs (fun _ => none) [("A".data, "B".data)])
           = some url ∧ url ≠ [] ∧ suffix = listenIntro ++ url) ∨
        ((create_spotify_playlist
            ⟨Except.ok (), fun _ => Except.ok ⟨"i".data, "u".data⟩, fun _ _ => Except.ok ()⟩
            (playlistName "relaxed".data "jazz".data)
            (search_songs (fun _ => none) [("A".data, "B".data)]) = none ∨
          create_spotify_playlist
            ⟨Except.ok (), fun _ => Except.ok ⟨"i".data, "u".data⟩, fun _ _ => Except.ok ()⟩
            (playlistName "relaxed".data "jazz".data)
            (search_songs (fun _ => none) [("A".data, "B".data)]) = some []) ∧
          suffix = degradedNotice)) :=
  c8_reply_composition "Mood: relaxed\nGenre: jazz".data "1. A - B".data (fun _ => none)
    ⟨Except.ok (), fun _ => Except.ok ⟨"i".data, "u".data⟩, fun _ _ => Except.ok ()⟩
    sessionInit "relaxed".data "jazz".data [("A".data, "B".data)]
    (by decide) (by decide) (by decide)
